import Mathlib

/-!
# The ribbon balancing driver (`run_policy_ribbon`)

A shallow embedding of `pybuda/csrc/balancer/policies/policy_ribbon.cpp`.

The driver owns three local variables (`policy_manager`, `epoch_completed`,
`validated_cache`) and talks to collaborators that live in other translation
units: the `PolicyManager` member functions and the free function
`select_best_op_model_ribbon`.  The collaborators are taken as parameters
(`Externals`); every one of them may mutate the manager, so each returns the
manager state it leaves behind.  The driver itself is embedded statement by
statement, and it records every call it makes in a trace.

The `while` loop has no bound of its own, so the loop carries a fuel counter:
`none` as the outcome means the fuel ran out before `get_next_op` returned
null.
-/

namespace tt.balancer

/-! ## Collaborators -/

/-- The three `legalizer` invalidation strategy flags or-ed together at line 40.
Their numeric values are declared in `graph_solver.hpp`. -/
structure InvalidationStrategy where
  MatmulSparseDenseGridPairing : Nat
  DenseMatmulPrologue : Nat
  DenseMatmulBetterUkt : Nat
deriving DecidableEq, Repr

/-- Process environment as read through `env_as<T>(name, default)`: the parsed
value of a variable when it is set, nothing when it is not. -/
structure Env where
  PYBUDA_RIBBON1_PREPASS_ENABLED : Option Bool
  PYBUDA_RIBBON_TARGET_CYCLES : Option Int
deriving DecidableEq, Repr

/-- Modelled from the spec: the helper `env_as<T>(name, default)` is declared outside
`policy_ribbon.cpp`.  Section 6 lists the tunable parameters as read-only inputs, each
with a default ("a target cycle budget per epoch (integer, default on the order of tens
of thousands), an enable flag for the optional suboptimal-configuration pre-filter"):
the value of the variable when it is set, the default given at the call otherwise. -/
def env_as {T : Type} (var : Option T) (default : T) : T :=
  var.getD default

/-- Everything `run_policy_ribbon` calls but does not define.  `M` is the state
of a `PolicyManager` (with the graph solver it holds by reference). -/
structure Externals (M Node OpModel Graph Config GraphSolver PlacerSolution Solution : Type) where
  /-- Constructor `PolicyManager(graph, config, graph_solver, ribbon_policy)`. -/
  PolicyManager : Graph → Config → GraphSolver → Bool → M
  /-- Member `invalidate_suboptimal_op_models(strategy)`, returning nothing. -/
  invalidate_suboptimal_op_models : M → Nat → M
  /-- Member `get_next_op()`, returning a node pointer; `none` is the null pointer. -/
  get_next_op : M → Option Node × M
  /-- Member `get_current_ribbon_size()`. -/
  get_current_ribbon_size : M → Nat × M
  /-- Free function `select_best_op_model_ribbon(policy_manager, op, ribbon_size, config,
  graph, validated_cache, target_cycles)`; the cache is passed by reference. -/
  select_best_op_model_ribbon :
    M → Node → Nat → Config → Graph → Finset Nat → Int → OpModel × M × Finset Nat
  /-- Member `commit_op(op_model)`, returning a three-component tuple of which the driver
  reads the second. -/
  commit_op : M → OpModel → (Bool × Bool × Bool) × M
  /-- Member `finish_current_epoch()`, whose result the driver does not use. -/
  finish_current_epoch : M → M
  /-- Member `commit_solution()`. -/
  commit_solution : M → PlacerSolution × M
  /-- Member `finish()`. -/
  finish : M → Solution × M

/-! ## Trace of calls -/

/-- One call made by the body of `run_policy_ribbon`, with the arguments the
driver passed and the value it got back. -/
inductive Call (Node OpModel : Type) where
  | invalidate_suboptimal_op_models (strategy : Nat)
  | get_next_op (result : Option Node)
  | get_current_ribbon_size (result : Nat)
  | select_best_op_model_ribbon (op : Node) (ribbon_size : Nat) (validated_cache : Finset Nat)
      (target_cycles : Int) (result : OpModel)
  | commit_op (op_model : OpModel) (accepted epoch_completed third : Bool)
  | finish_current_epoch
  | commit_solution
  | finish
deriving DecidableEq

/-- The driver's local variables at a point of the loop, with the calls made so far
in the piece of code that produced them. -/
structure Locals (M Node OpModel : Type) where
  calls : List (Call Node OpModel)
  policy_manager : M
  validated_cache : Finset Nat
  epoch_completed : Bool
deriving DecidableEq

section Driver

variable {M Node OpModel Graph Config GraphSolver PlacerSolution Solution : Type}

/-- Lines 52-70: the body of the `while` loop for the non-null `node` that
`get_next_op` has just returned, entered with the manager in state `pm`. -/
def loop_body (X : Externals M Node OpModel Graph Config GraphSolver PlacerSolution Solution)
    (graph : Graph) (config : Config) (target_cycles : Int)
    (node : Node) (pm : M) (validated_cache : Finset Nat) : Locals M Node OpModel :=
  -- arguments of the call at line 54 are evaluated first
  let ribbon := X.get_current_ribbon_size pm
  let sel := X.select_best_op_model_ribbon ribbon.2 node ribbon.1 config graph
    validated_cache target_cycles
  let selected_op_model := sel.1
  -- line 63: std::tie(std::ignore, epoch_completed, std::ignore) = commit_op(...)
  let committed := X.commit_op sel.2.1 selected_op_model
  let epoch_completed := committed.1.2.1
  let head : List (Call Node OpModel) :=
    [Call.get_current_ribbon_size ribbon.1,
     Call.select_best_op_model_ribbon node ribbon.1 validated_cache target_cycles
       selected_op_model,
     Call.commit_op selected_op_model committed.1.1 committed.1.2.1 committed.1.2.2]
  -- lines 67-70
  if epoch_completed then
    { calls := head ++ [Call.finish_current_epoch],
      policy_manager := X.finish_current_epoch committed.2,
      validated_cache := sel.2.2,
      epoch_completed := epoch_completed }
  else
    { calls := head,
      policy_manager := committed.2,
      validated_cache := sel.2.2,
      epoch_completed := epoch_completed }

/-- Lines 50-71: the `while` loop.  The result pairs the calls made with the
locals at loop exit, or with `none` when `fuel` iterations did not reach the exit. -/
def ribbon_loop (X : Externals M Node OpModel Graph Config GraphSolver PlacerSolution Solution)
    (graph : Graph) (config : Config) (target_cycles : Int) :
    Nat → M → Finset Nat → Bool → List (Call Node OpModel) × Option (M × Finset Nat × Bool)
  | 0, _, _, _ => ([], none)
  | fuel + 1, pm, validated_cache, epoch_completed =>
    match X.get_next_op pm with
    | (none, pm1) => ([Call.get_next_op none], some (pm1, validated_cache, epoch_completed))
    | (some node, pm1) =>
      let it := loop_body X graph config target_cycles node pm1 validated_cache
      let rest := ribbon_loop X graph config target_cycles fuel
        it.policy_manager it.validated_cache it.epoch_completed
      (Call.get_next_op (some node) :: it.calls ++ rest.1, rest.2)

/-- What a finished run hands back: the `placer_solution` out-parameter, the
returned solution, and the manager as `finish` left it. -/
structure Outcome (M PlacerSolution Solution : Type) where
  placer_solution : PlacerSolution
  solution : Solution
  policy_manager : M
deriving DecidableEq

/-- Lines 38-41: the optional pre-pass, as the calls made and the manager left. -/
def prepass (X : Externals M Node OpModel Graph Config GraphSolver PlacerSolution Solution)
    (strategy : InvalidationStrategy) (env : Env) (pm0 : M) : List (Call Node OpModel) × M :=
  if env_as env.PYBUDA_RIBBON1_PREPASS_ENABLED false then
    ([Call.invalidate_suboptimal_op_models
        (strategy.MatmulSparseDenseGridPairing ||| strategy.DenseMatmulPrologue |||
          strategy.DenseMatmulBetterUkt)],
     X.invalidate_suboptimal_op_models pm0
        (strategy.MatmulSparseDenseGridPairing ||| strategy.DenseMatmulPrologue |||
          strategy.DenseMatmulBetterUkt))
  else
    ([], pm0)

/-- Lines 38-75 of `run_policy_ribbon`, from a constructed manager `pm0`. -/
def run_policy_ribbon_from
    (X : Externals M Node OpModel Graph Config GraphSolver PlacerSolution Solution)
    (strategy : InvalidationStrategy) (env : Env) (fuel : Nat)
    (graph : Graph) (config : Config) (pm0 : M) :
    List (Call Node OpModel) × Option (Outcome M PlacerSolution Solution) :=
  let pp := prepass X strategy env pm0
  let epoch_completed := false
  let validated_cache : Finset Nat := ∅
  let target_cycles := env_as env.PYBUDA_RIBBON_TARGET_CYCLES 45000
  let lp := ribbon_loop X graph config target_cycles fuel pp.2 validated_cache epoch_completed
  match lp.2 with
  | none => (pp.1 ++ lp.1, none)
  | some fin =>
    let ps := X.commit_solution fin.1
    let r := X.finish ps.2
    (pp.1 ++ lp.1 ++ [Call.commit_solution, Call.finish],
     some { placer_solution := ps.1, solution := r.1, policy_manager := r.2 })

/-- The function `run_policy_ribbon` (lines 30-76). -/
def run_policy_ribbon
    (X : Externals M Node OpModel Graph Config GraphSolver PlacerSolution Solution)
    (strategy : InvalidationStrategy) (env : Env) (fuel : Nat)
    (graph : Graph) (config : Config) (graph_solver : GraphSolver) :
    List (Call Node OpModel) × Option (Outcome M PlacerSolution Solution) :=
  run_policy_ribbon_from X strategy env fuel graph config
    (X.PolicyManager graph config graph_solver true)

end Driver

/-! ## Reading a trace -/

section Trace

variable {Node OpModel : Type}

/-- The non-null nodes `get_next_op` returned, in order. -/
def handed_out (calls : List (Call Node OpModel)) : List Node :=
  calls.filterMap fun c =>
    match c with
    | Call.get_next_op (some node) => some node
    | _ => none

/-- The ribbon sizes passed to the `select_best_op_model_ribbon` calls, in order. -/
def selection_widths (calls : List (Call Node OpModel)) : List Nat :=
  calls.filterMap fun c =>
    match c with
    | Call.select_best_op_model_ribbon _ w _ _ _ => some w
    | _ => none

/-- Whether a call is `select_best_op_model_ribbon`. -/
def Call.is_selection : Call Node OpModel → Bool
  | Call.select_best_op_model_ribbon _ _ _ _ _ => true
  | _ => false

/-- The same call with the `accepted` component of a `commit_op` result blanked. -/
def Call.forget_accepted : Call Node OpModel → Call Node OpModel
  | Call.commit_op om _ ec third => Call.commit_op om false ec third
  | c => c

/-- Control flow of the driver as a relation between one call and the call made
right after it. -/
def Call.may_precede : Call Node OpModel → Call Node OpModel → Prop
  | Call.invalidate_suboptimal_op_models _, Call.get_next_op _ => True
  | Call.get_next_op (some _), Call.get_current_ribbon_size _ => True
  | Call.get_next_op none, Call.commit_solution => True
  | Call.get_current_ribbon_size w, Call.select_best_op_model_ribbon _ w2 _ _ _ => w = w2
  | Call.select_best_op_model_ribbon _ _ _ _ om, Call.commit_op om2 _ _ _ => om = om2
  | Call.commit_op _ _ ec _, Call.finish_current_epoch => ec = true
  | Call.commit_op _ _ ec _, Call.get_next_op _ => ec = false
  | Call.finish_current_epoch, Call.get_next_op _ => True
  | Call.commit_solution, Call.finish => True
  | _, _ => False

end Trace

/-! ## The scheduler state machine of the specification -/

/-- States of the scheduler state machine. -/
inductive Phase where
  | Scheduling
  | EpochFull
  | Done
deriving DecidableEq, Repr

section Machine

variable {Node OpModel : Type}

/-- One transition: `Scheduling → EpochFull` on a commit that reports epoch
completion, `EpochFull → Scheduling` on `finish_current_epoch`,
`Scheduling → Done` when `get_next_op` returns none; `Done` permits only the
assembly calls.  `none` means the call is not permitted in the state. -/
def Phase.step : Phase → Call Node OpModel → Option Phase
  | Phase.Scheduling, Call.invalidate_suboptimal_op_models _ => some Phase.Scheduling
  | Phase.Scheduling, Call.get_next_op (some _) => some Phase.Scheduling
  | Phase.Scheduling, Call.get_next_op none => some Phase.Done
  | Phase.Scheduling, Call.get_current_ribbon_size _ => some Phase.Scheduling
  | Phase.Scheduling, Call.select_best_op_model_ribbon _ _ _ _ _ => some Phase.Scheduling
  | Phase.Scheduling, Call.commit_op _ _ true _ => some Phase.EpochFull
  | Phase.Scheduling, Call.commit_op _ _ false _ => some Phase.Scheduling
  | Phase.EpochFull, Call.finish_current_epoch => some Phase.Scheduling
  | Phase.Done, Call.commit_solution => some Phase.Done
  | Phase.Done, Call.finish => some Phase.Done
  | _, _ => none

end Machine

/-! ## Variations of the collaborators -/

section Variations

variable {M Node OpModel Graph Config GraphSolver PlacerSolution Solution : Type}

/-- The same collaborators, except that `commit_op` reports `f pm om` as its first
(`accepted`) component. -/
def Externals.with_accepted
    (X : Externals M Node OpModel Graph Config GraphSolver PlacerSolution Solution)
    (f : M → OpModel → Bool) :
    Externals M Node OpModel Graph Config GraphSolver PlacerSolution Solution :=
  { X with
    commit_op := fun pm om =>
      ((f pm om, (X.commit_op pm om).1.2.1, (X.commit_op pm om).1.2.2), (X.commit_op pm om).2) }

/-- Local recovery of a declined commit, read on a trace: whenever a commit comes back
with `accepted = false`, the next selection made (if there is one) is for the same
node, and it either picks another op model or comes after a `finish_current_epoch`. -/
def recovers_locally (calls : List (Call Node OpModel)) : Prop :=
  ∀ pre mid post node w c tc om ec t node2 w2 c2 tc2 om2,
    calls = pre ++ Call.select_best_op_model_ribbon node w c tc om ::
      Call.commit_op om false ec t ::
      (mid ++ Call.select_best_op_model_ribbon node2 w2 c2 tc2 om2 :: post) →
    (∀ x ∈ mid, x.is_selection = false) →
    node2 = node ∧ (om2 ≠ om ∨ Call.finish_current_epoch ∈ mid)

/-- Progress of the scheduler as a precondition on the collaborators, for a count
`remaining` of uncommitted computation nodes: a `commit_op` made while nodes remain
strictly lowers the count, and `get_next_op` returns none exactly when it is zero. -/
def makes_progress
    (X : Externals M Node OpModel Graph Config GraphSolver PlacerSolution Solution)
    (remaining : M → Nat) : Prop :=
  (∀ pm om, 0 < remaining pm → remaining (X.commit_op pm om).2 < remaining pm) ∧
  (∀ pm, (X.get_next_op pm).1 = none ↔ remaining pm = 0)

/-- The manager and the cache with which the loop, entered with `pm` and `cache`,
starts its turn number `k` (counting from 0); `none` when the loop has exited before. -/
def iteration_start
    (X : Externals M Node OpModel Graph Config GraphSolver PlacerSolution Solution)
    (graph : Graph) (config : Config) (target_cycles : Int) :
    Nat → M → Finset Nat → Option (M × Finset Nat)
  | 0, pm, cache => some (pm, cache)
  | k + 1, pm, cache =>
    match (X.get_next_op pm).1 with
    | none => none
    | some node =>
      iteration_start X graph config target_cycles k
        (loop_body X graph config target_cycles node (X.get_next_op pm).2 cache).policy_manager
        (loop_body X graph config target_cycles node (X.get_next_op pm).2 cache).validated_cache

/-- A precondition on the calls the loop makes when entered with `pm` and `cache`, for a
count `remaining` of uncommitted computation nodes: at every turn the loop starts,
`get_next_op` returns none exactly when the count is zero, the `commit_op` call made
lowers the count by exactly one, and the other calls made (`get_next_op`,
`get_current_ribbon_size`, `select_best_op_model_ribbon` and, when it is made,
`finish_current_epoch`) leave it as it is. -/
def one_node_per_commit
    (X : Externals M Node OpModel Graph Config GraphSolver PlacerSolution Solution)
    (graph : Graph) (config : Config) (target_cycles : Int) (remaining : M → Nat)
    (pm : M) (cache : Finset Nat) : Prop :=
  ∀ k pmk ck, iteration_start X graph config target_cycles k pm cache = some (pmk, ck) →
    ((X.get_next_op pmk).1 = none ↔ remaining pmk = 0) ∧
    ∀ node r sel cm,
      (X.get_next_op pmk).1 = some node →
      r = X.get_current_ribbon_size (X.get_next_op pmk).2 →
      sel = X.select_best_op_model_ribbon r.2 node r.1 config graph ck target_cycles →
      cm = X.commit_op sel.2.1 sel.1 →
        remaining (X.get_next_op pmk).2 = remaining pmk ∧
        remaining r.2 = remaining (X.get_next_op pmk).2 ∧
        remaining sel.2.1 = remaining r.2 ∧
        remaining cm.2 + 1 = remaining sel.2.1 ∧
        (cm.1.2.1 = true → remaining (X.finish_current_epoch cm.2) = remaining cm.2)

end Variations

/-! ## Test doubles -/

/-- State of a scripted manager: the nodes still to hand out, the ribbon size of
the open epoch and the number of finished epochs. -/
structure Scripted where
  pending : List Nat
  ribbon : Nat
  epochs : Nat
deriving DecidableEq, Repr

/-- A scripted manager: hands out the pending nodes in order, answers `commit_op` with
the flags `accept om` and `complete om` and no other effect, and doubles the ribbon
size when an epoch is finished. -/
def scripted (accept complete : Nat → Bool) :
    Externals Scripted Nat Nat Unit Unit (List Nat) Nat Nat where
  PolicyManager := fun _ _ nodes _ => { pending := nodes, ribbon := 1, epochs := 0 }
  invalidate_suboptimal_op_models := fun s _ => s
  get_next_op := fun s => (s.pending.head?, { s with pending := s.pending.tail })
  get_current_ribbon_size := fun s => (s.ribbon, s)
  select_best_op_model_ribbon := fun s node w _ _ cache _ => (10 * node + w, s, insert node cache)
  commit_op := fun s om => ((accept om, complete om, false), s)
  finish_current_epoch := fun s => { s with ribbon := 2 * s.ribbon, epochs := s.epochs + 1 }
  commit_solution := fun s => (s.epochs, s)
  finish := fun s => (s.epochs, s)

/-- A counting manager whose state is the number of uncommitted nodes: `commit_op`
lowers it by `step` and reports `complete`, `finish_current_epoch` raises it by
`reopened`. -/
def counting (step : Nat) (complete : Bool) (reopened : Nat) :
    Externals Nat Nat Nat Unit Unit Nat Nat Nat where
  PolicyManager := fun _ _ n _ => n
  invalidate_suboptimal_op_models := fun n _ => n
  get_next_op := fun n => (if n = 0 then none else some n, n)
  get_current_ribbon_size := fun n => (1, n)
  select_best_op_model_ribbon := fun n node _ _ _ cache _ => (node, n, cache)
  commit_op := fun n _ => ((true, complete, false), n - step)
  finish_current_epoch := fun n => n + reopened
  commit_solution := fun n => (n, n)
  finish := fun n => (n, n)

/-- No variable set in the environment. -/
def Env.unset : Env :=
  { PYBUDA_RIBBON1_PREPASS_ENABLED := none, PYBUDA_RIBBON_TARGET_CYCLES := none }

/-- Some values for the three strategy flags. -/
def InvalidationStrategy.sample : InvalidationStrategy :=
  { MatmulSparseDenseGridPairing := 1, DenseMatmulPrologue := 2, DenseMatmulBetterUkt := 4 }

/-! ## The selection heuristic of the specification -/

section Heuristic

variable {M Node OpModel Graph Config GraphSolver PlacerSolution Solution : Type}

end Heuristic

/-- Modelled from the spec: a Configuration (op model), "an opaque, comparable value
describing one legal way to execute a node", reduced to the node it is for and its
resource footprint. -/
structure Configuration (Node : Type) where
  node : Node
  footprint : Nat
deriving DecidableEq, Repr

/-- Modelled from the spec: the Graph, "an immutable directed acyclic structure of
Nodes with data-dependency edges"; an edge `(a, b)` makes `a` an operand of `b`. -/
structure DataflowGraph (Node : Type) where
  nodes : List Node
  edges : List (Node × Node)
deriving DecidableEq, Repr

/-- Modelled from the spec: state of the EpochScheduler (class `PolicyManager`, which
`policy_ribbon.cpp` uses and does not define), section 4.1: the committed nodes,
the open epoch with its resource ledger, and the finalized epochs in order. -/
structure EpochScheduler (Node : Type) where
  graph : DataflowGraph Node
  capacity : Nat
  committed : List Node
  open_epoch : List (Configuration Node)
  ledger : Nat
  width : Nat
  epochs : List (List (Configuration Node))
deriving DecidableEq, Repr

section SpecScheduler

variable {Node : Type} [DecidableEq Node]

/-- Modelled from the spec: `nextSchedulableNode`, "the next computation node, in an
order that guarantees all of its data-dependency operands have already been committed
in a prior or the current epoch.  Returns none when every computation node has been
committed". -/
def EpochScheduler.nextSchedulableNode (s : EpochScheduler Node) : Option Node :=
  s.graph.nodes.find? fun n =>
    decide (n ∉ s.committed) &&
      (s.graph.edges.all fun e => decide (e.2 = n → e.1 ∈ s.committed))

/-- The number of computation nodes of the graph not committed yet. -/
def EpochScheduler.uncommitted (s : EpochScheduler Node) : Nat :=
  (s.graph.nodes.filter fun n => decide (n ∉ s.committed)).length

/-- Modelled from the spec: `commit`, which "records the commitment against the
current epoch's resource ledger.  Fails the commitment (acceptedFlag = false) if the
configuration would exceed epoch capacity"; "epochCompletedFlag is true when the epoch
ledger has reached capacity or a structural boundary requirement is met".  A rejected
commitment leaves the state alone and asks for an epoch boundary when the open epoch
holds something. -/
def EpochScheduler.commit (s : EpochScheduler Node) (c : Configuration Node) :
    (Bool × Bool × Bool) × EpochScheduler Node :=
  if s.ledger + c.footprint ≤ s.capacity then
    ((true, decide (s.capacity ≤ s.ledger + c.footprint), false),
     { s with
       committed := s.committed ++ [c.node],
       open_epoch := s.open_epoch ++ [c],
       ledger := s.ledger + c.footprint })
  else
    ((false, !s.open_epoch.isEmpty, false), s)

/-- Modelled from the spec: `finalizeCurrentEpoch`, which "freezes the current epoch's
commitments into an immutable record, opens a fresh empty epoch, and resets any
per-epoch parameters (e.g., width parameter)". -/
def EpochScheduler.finalizeCurrentEpoch (s : EpochScheduler Node) : EpochScheduler Node :=
  { s with epochs := s.epochs ++ [s.open_epoch], open_epoch := [], ledger := 0, width := 1 }

/-- Modelled from the spec: `assembleSolution`, "if the current epoch has pending
uncommitted state, finalizes it first; returns the full ordered list of epochs". -/
def EpochScheduler.assembleSolution (s : EpochScheduler Node) : EpochScheduler Node :=
  if s.open_epoch.isEmpty then s else s.finalizeCurrentEpoch

/-- Modelled from the spec: the scheduler of section 4.1 behind the calls of
`run_policy_ribbon`, with a heuristic `choose` and a configuration identity `ident`.
`commit_solution` assembles the solution and returns the placement artifact (the epoch
index of every node), `finish` returns the ordered list of epochs. -/
def spec_scheduler (choose : Node → Configuration Node) (ident : Configuration Node → Nat) :
    Externals (EpochScheduler Node) Node (Configuration Node) (DataflowGraph Node) Nat Unit
      (List (List Node)) (List (List (Configuration Node))) where
  PolicyManager := fun graph capacity _ _ =>
    { graph := graph, capacity := capacity, committed := [], open_epoch := [], ledger := 0,
      width := 1, epochs := [] }
  invalidate_suboptimal_op_models := fun s _ => s
  get_next_op := fun s => (s.nextSchedulableNode, s)
  get_current_ribbon_size := fun s => (s.width, s)
  select_best_op_model_ribbon := fun s node _ _ _ cache _ =>
    (choose node, s, insert (ident (choose node)) cache)
  commit_op := fun s c => s.commit c
  finish_current_epoch := fun s => s.finalizeCurrentEpoch
  commit_solution := fun s =>
    (s.assembleSolution.epochs.map fun e => e.map Configuration.node, s.assembleSolution)
  finish := fun s => (s.epochs, s)

end SpecScheduler

/-- The three nodes of the chain scenario. -/
inductive ChainNode where
  | A
  | B
  | C
deriving DecidableEq, Repr

/-- The linear chain `A → B → C`. -/
def chain : DataflowGraph ChainNode :=
  { nodes := [ChainNode.A, ChainNode.B, ChainNode.C],
    edges := [(ChainNode.A, ChainNode.B), (ChainNode.B, ChainNode.C)] }

/-- Each node of the scenario has exactly one legal configuration, of footprint 1. -/
def chain_configuration (n : ChainNode) : Configuration ChainNode :=
  { node := n, footprint := 1 }

/-- An identity for the configurations of the scenario. -/
def chain_ident (c : Configuration ChainNode) : Nat :=
  match c.node with
  | ChainNode.A => 0
  | ChainNode.B => 1
  | ChainNode.C => 2

/-- The scheduler of the specification on the chain scenario. -/
def chain_scheduler :
    Externals (EpochScheduler ChainNode) ChainNode (Configuration ChainNode)
      (DataflowGraph ChainNode) Nat Unit (List (List ChainNode))
      (List (List (Configuration ChainNode))) :=
  spec_scheduler chain_configuration chain_ident

/-! # Properties of the driver -/

section Basics

variable {M Node OpModel Graph Config GraphSolver PlacerSolution Solution : Type}
variable (X : Externals M Node OpModel Graph Config GraphSolver PlacerSolution Solution)
variable (graph : Graph) (config : Config) (target_cycles : Int)

/-- The loop exits on the first null `get_next_op`. -/
theorem ribbon_loop_exit (fuel : Nat) (pm : M) (cache : Finset Nat) (ec : Bool)
    (h : (X.get_next_op pm).1 = none) :
    ribbon_loop X graph config target_cycles (fuel + 1) pm cache ec =
      ([Call.get_next_op none], some ((X.get_next_op pm).2, cache, ec)) := by
  rcases hg : X.get_next_op pm with ⟨o, pm1⟩
  rw [hg] at h
  simp only at h
  subst h
  simp only [ribbon_loop, hg]

/-- One turn of the loop on a non-null node. -/
theorem ribbon_loop_iter (fuel : Nat) (pm : M) (cache : Finset Nat) (ec : Bool) (node : Node)
    (h : (X.get_next_op pm).1 = some node) :
    ribbon_loop X graph config target_cycles (fuel + 1) pm cache ec =
      (Call.get_next_op (some node) ::
        (loop_body X graph config target_cycles node (X.get_next_op pm).2 cache).calls ++
        (ribbon_loop X graph config target_cycles fuel
          (loop_body X graph config target_cycles node (X.get_next_op pm).2 cache).policy_manager
          (loop_body X graph config target_cycles node (X.get_next_op pm).2 cache).validated_cache
          (loop_body X graph config target_cycles node (X.get_next_op pm).2 cache).epoch_completed).1,
       (ribbon_loop X graph config target_cycles fuel
          (loop_body X graph config target_cycles node (X.get_next_op pm).2 cache).policy_manager
          (loop_body X graph config target_cycles node (X.get_next_op pm).2 cache).validated_cache
          (loop_body X graph config target_cycles node (X.get_next_op pm).2 cache).epoch_completed).2) := by
  rcases hg : X.get_next_op pm with ⟨o, pm1⟩
  rw [hg] at h
  simp only at h
  subst h
  simp only [ribbon_loop, hg]

/-- The calls of one loop body, spelled out. -/
theorem loop_body_calls (node : Node) (pm : M) (cache : Finset Nat) :
    (loop_body X graph config target_cycles node pm cache).calls =
      [Call.get_current_ribbon_size (X.get_current_ribbon_size pm).1,
       Call.select_best_op_model_ribbon node (X.get_current_ribbon_size pm).1 cache target_cycles
         (X.select_best_op_model_ribbon (X.get_current_ribbon_size pm).2 node
           (X.get_current_ribbon_size pm).1 config graph cache target_cycles).1,
       Call.commit_op
         (X.select_best_op_model_ribbon (X.get_current_ribbon_size pm).2 node
           (X.get_current_ribbon_size pm).1 config graph cache target_cycles).1
         (X.commit_op (X.select_best_op_model_ribbon (X.get_current_ribbon_size pm).2 node
           (X.get_current_ribbon_size pm).1 config graph cache target_cycles).2.1
           (X.select_best_op_model_ribbon (X.get_current_ribbon_size pm).2 node
           (X.get_current_ribbon_size pm).1 config graph cache target_cycles).1).1.1
         (loop_body X graph config target_cycles node pm cache).epoch_completed
         (X.commit_op (X.select_best_op_model_ribbon (X.get_current_ribbon_size pm).2 node
           (X.get_current_ribbon_size pm).1 config graph cache target_cycles).2.1
           (X.select_best_op_model_ribbon (X.get_current_ribbon_size pm).2 node
           (X.get_current_ribbon_size pm).1 config graph cache target_cycles).1).1.2.2] ++
      (if (loop_body X graph config target_cycles node pm cache).epoch_completed
        then [Call.finish_current_epoch] else []) := by
  simp only [loop_body]
  split <;> simp_all

/-- Shape of the calls of one loop body: a ribbon size read, the selection made with
that size, the commit of the selected op model, and `finish_current_epoch` exactly
when the body leaves `epoch_completed` set. -/
theorem loop_body_shape (node : Node) (pm : M) (cache : Finset Nat) :
    ∃ w om a t,
      (loop_body X graph config target_cycles node pm cache).calls =
        Call.get_current_ribbon_size w ::
        Call.select_best_op_model_ribbon node w cache target_cycles om ::
        Call.commit_op om a
          (loop_body X graph config target_cycles node pm cache).epoch_completed t ::
        (if (loop_body X graph config target_cycles node pm cache).epoch_completed
          then [Call.finish_current_epoch] else []) := by
  exact ⟨_, _, _, _, loop_body_calls X graph config target_cycles node pm cache⟩

/-- Induction over the trace of the loop: a property of (calls, exit) that holds
of the two ways the loop stops and is kept by putting one body in front holds of
every loop run. -/
theorem ribbon_loop_induct
    (P : List (Call Node OpModel) → Option (M × Finset Nat × Bool) → Prop)
    (hfuel : P [] none)
    (hexit : ∀ x, P [Call.get_next_op none] (some x))
    (hiter : ∀ node w cache om a ec t rest exit, P rest exit →
      P (Call.get_next_op (some node) :: Call.get_current_ribbon_size w ::
          Call.select_best_op_model_ribbon node w cache target_cycles om ::
          Call.commit_op om a ec t ::
          ((if ec then [Call.finish_current_epoch] else []) ++ rest)) exit) :
    ∀ (fuel : Nat) (pm : M) (cache : Finset Nat) (ec : Bool),
      P (ribbon_loop X graph config target_cycles fuel pm cache ec).1
        (ribbon_loop X graph config target_cycles fuel pm cache ec).2 := by
  intro fuel
  induction fuel with
  | zero => intro pm cache ec; exact hfuel
  | succ fuel ih =>
    intro pm cache ec
    cases hn : (X.get_next_op pm).1 with
    | none =>
      rw [ribbon_loop_exit X graph config target_cycles fuel pm cache ec hn]
      exact hexit _
    | some node =>
      rw [ribbon_loop_iter X graph config target_cycles fuel pm cache ec node hn]
      obtain ⟨w, om, a, t, hs⟩ :=
        loop_body_shape X graph config target_cycles node (X.get_next_op pm).2 cache
      simp only [hs, List.cons_append]
      exact hiter node w cache om a _ t _ _ (ih _ _ _)

/-- The function without its `match`: the calls are those of the pre-pass, of the
loop and, when the loop exits, of the assembly; the outcome is built from the manager
at loop exit. -/
theorem run_policy_ribbon_from_eq (strategy : InvalidationStrategy) (env : Env) (fuel : Nat)
    (pm0 : M) :
    run_policy_ribbon_from X strategy env fuel graph config pm0 =
      ((prepass X strategy env pm0).1 ++
        (ribbon_loop X graph config (env_as env.PYBUDA_RIBBON_TARGET_CYCLES 45000) fuel
          (prepass X strategy env pm0).2 ∅ false).1 ++
        (if (ribbon_loop X graph config (env_as env.PYBUDA_RIBBON_TARGET_CYCLES 45000) fuel
          (prepass X strategy env pm0).2 ∅ false).2.isSome
          then [Call.commit_solution, Call.finish] else []),
       (ribbon_loop X graph config (env_as env.PYBUDA_RIBBON_TARGET_CYCLES 45000) fuel
          (prepass X strategy env pm0).2 ∅ false).2.map fun fin =>
          { placer_solution := (X.commit_solution fin.1).1,
            solution := (X.finish (X.commit_solution fin.1).2).1,
            policy_manager := (X.finish (X.commit_solution fin.1).2).2 }) := by
  simp only [run_policy_ribbon_from]
  split <;> rename_i h <;> simp [h]

/-- The pre-pass makes no call or the one `invalidate_suboptimal_op_models` call. -/
theorem prepass_calls (strategy : InvalidationStrategy) (env : Env) (pm0 : M) :
    (prepass X strategy env pm0).1 = [] ∨
      ∃ mask, (prepass X strategy env pm0).1 = [Call.invalidate_suboptimal_op_models mask] := by
  unfold prepass
  split
  · exact Or.inr ⟨_, rfl⟩
  · exact Or.inl rfl

/-- The calls of the whole function: the optional pre-pass, the loop, and the two
assembly calls when the loop exits. -/
theorem run_policy_ribbon_from_calls (strategy : InvalidationStrategy) (env : Env) (fuel : Nat)
    (pm0 : M) :
    ∃ (pre : List (Call Node OpModel)) (pm : M),
      (pre = [] ∨ ∃ mask, pre = [Call.invalidate_suboptimal_op_models mask]) ∧
      (run_policy_ribbon_from X strategy env fuel graph config pm0).1 =
        pre ++ (ribbon_loop X graph config
          (env_as env.PYBUDA_RIBBON_TARGET_CYCLES 45000) fuel pm ∅ false).1 ++
          (if (ribbon_loop X graph config
            (env_as env.PYBUDA_RIBBON_TARGET_CYCLES 45000) fuel pm ∅ false).2.isSome
            then [Call.commit_solution, Call.finish] else []) ∧
      ((run_policy_ribbon_from X strategy env fuel graph config pm0).2.isSome =
        (ribbon_loop X graph config
          (env_as env.PYBUDA_RIBBON_TARGET_CYCLES 45000) fuel pm ∅ false).2.isSome) := by
  rw [run_policy_ribbon_from_eq]
  exact ⟨_, _, prepass_calls X strategy env pm0, rfl, by simp⟩

/-- Control flow inside the loop: consecutive calls are related by `may_precede`, the
loop opens with `get_next_op`, closes with a null `get_next_op` when it exits, and is
never cut right after a commit that reported epoch completion. -/
theorem ribbon_loop_chain (fuel : Nat) (pm : M) (cache : Finset Nat) (ec : Bool) :
    List.Chain' Call.may_precede (ribbon_loop X graph config target_cycles fuel pm cache ec).1 ∧
    ((ribbon_loop X graph config target_cycles fuel pm cache ec).1 = [] →
      (ribbon_loop X graph config target_cycles fuel pm cache ec).2 = none) ∧
    (∀ c, (ribbon_loop X graph config target_cycles fuel pm cache ec).1.head? = some c →
      ∃ r, c = Call.get_next_op r) ∧
    (∀ c, (ribbon_loop X graph config target_cycles fuel pm cache ec).1.getLast? = some c →
      ((ribbon_loop X graph config target_cycles fuel pm cache ec).2.isSome →
        c = Call.get_next_op none) ∧
      ((ribbon_loop X graph config target_cycles fuel pm cache ec).2 = none →
        c = Call.finish_current_epoch ∨ ∃ om a t, c = Call.commit_op om a false t)) := by
  refine ribbon_loop_induct X graph config target_cycles
    (fun l e => List.Chain' Call.may_precede l ∧ (l = [] → e = none) ∧
      (∀ c, l.head? = some c → ∃ r, c = Call.get_next_op r) ∧
      (∀ c, l.getLast? = some c → (e.isSome → c = Call.get_next_op none) ∧
        (e = none → c = Call.finish_current_epoch ∨ ∃ om a t, c = Call.commit_op om a false t)))
    ?_ ?_ ?_ fuel pm cache ec
  · simp
  · intro x
    simp
  · intro node w cache om a ec t rest exit ⟨hc, he, hh, hl⟩
    cases rest with
    | nil =>
      have he2 := he rfl
      subst he2
      cases ec
      · simp [Call.may_precede]
        exact ⟨om, by cases a <;> cases t <;> simp⟩
      · simp [Call.may_precede]
    | cons c rest =>
      obtain ⟨r, rfl⟩ := hh c rfl
      cases ec
      · refine ⟨?_, ?_, ?_, ?_⟩
        · simp [Call.may_precede, hc]
        · simp
        · simp
        · intro c hcl
          apply hl c
          simpa [List.getLast?_cons_cons] using hcl
      · refine ⟨?_, ?_, ?_, ?_⟩
        · simp [Call.may_precede, hc]
        · simp
        · simp
        · intro c hcl
          apply hl c
          simpa [List.getLast?_cons_cons] using hcl

/-- Control flow of the whole function: consecutive calls are related by
`may_precede`, the trace never stops right after a commit that reported epoch
completion, and a run that returns ends with `finish`. -/
theorem run_policy_ribbon_from_chain (strategy : InvalidationStrategy) (env : Env) (fuel : Nat)
    (pm0 : M) :
    List.Chain' Call.may_precede
      (run_policy_ribbon_from X strategy env fuel graph config pm0).1 ∧
    (∀ om a t, (run_policy_ribbon_from X strategy env fuel graph config pm0).1.getLast? ≠
      some (Call.commit_op om a true t)) ∧
    (∀ c, (run_policy_ribbon_from X strategy env fuel graph config pm0).1.head? = some c →
      (∃ r, c = Call.get_next_op r) ∨ ∃ mask, c = Call.invalidate_suboptimal_op_models mask) := by
  obtain ⟨pre, pm, hpre, hcalls, -⟩ :=
    run_policy_ribbon_from_calls X graph config strategy env fuel pm0
  obtain ⟨hc, hnil, hhead, hlast⟩ :=
    ribbon_loop_chain X graph config (env_as env.PYBUDA_RIBBON_TARGET_CYCLES 45000) fuel pm ∅ false
  rw [hcalls]
  generalize ribbon_loop X graph config (env_as env.PYBUDA_RIBBON_TARGET_CYCLES 45000)
    fuel pm ∅ false = lp at hc hnil hhead hlast
  obtain ⟨l, e⟩ := lp
  simp only at hc hnil hhead hlast
  cases e with
  | none =>
    simp only [Option.isSome_none, Bool.false_eq_true, if_false, List.append_nil]
    refine ⟨?_, ?_, ?_⟩
    · rw [List.chain'_append]
      refine ⟨?_, hc, ?_⟩
      · rcases hpre with rfl | ⟨mask, rfl⟩ <;> simp
      · intro x hx y hy
        obtain ⟨r, rfl⟩ := hhead y hy
        rcases hpre with rfl | ⟨mask, rfl⟩
        · simp at hx
        · simp at hx
          subst hx
          simp [Call.may_precede]
    · intro om a t hcon
      rw [List.getLast?_append] at hcon
      cases hl : l.getLast? with
      | none =>
        rw [hl] at hcon
        rcases hpre with rfl | ⟨mask, rfl⟩ <;> simp at hcon
      | some c =>
        rw [hl] at hcon
        simp at hcon
        subst hcon
        rcases (hlast _ hl).2 rfl with h | ⟨om2, a2, t2, h⟩ <;> simp at h
    · intro c hcd
      rcases hpre with rfl | ⟨mask, rfl⟩
      · exact Or.inl (hhead c (by simpa using hcd))
      · simp at hcd
        exact Or.inr ⟨mask, hcd.symm⟩
  | some x =>
    simp only [Option.isSome_some, if_true]
    have hne : l ≠ [] := fun h => by simpa using hnil h
    obtain ⟨c, hcl⟩ : ∃ c, l.getLast? = some c := by
      cases hl : l.getLast? with
      | none => exact absurd (List.getLast?_eq_none_iff.mp hl) hne
      | some c => exact ⟨c, rfl⟩
    have hcn := (hlast c hcl).1 rfl
    subst hcn
    refine ⟨?_, ?_, ?_⟩
    · rw [List.chain'_append, List.chain'_append]
      refine ⟨⟨?_, hc, ?_⟩, by simp [Call.may_precede], ?_⟩
      · rcases hpre with rfl | ⟨mask, rfl⟩ <;> simp
      · intro x hx y hy
        obtain ⟨r, rfl⟩ := hhead y hy
        rcases hpre with rfl | ⟨mask, rfl⟩
        · simp at hx
        · simp at hx
          subst hx
          simp [Call.may_precede]
      · intro x hx y hy
        rw [List.getLast?_append, hcl] at hx
        simp at hx hy
        subst hx hy
        simp [Call.may_precede]
    · intro om a t hcon
      simp at hcon
    · intro c hcd
      rcases hpre with rfl | ⟨mask, rfl⟩
      · refine Or.inl (hhead c ?_)
        cases l with
        | nil => exact absurd rfl hne
        | cons d l => simpa using hcd
      · simp at hcd
        exact Or.inr ⟨mask, hcd.symm⟩

/-- The loop body does the same whatever `commit_op` reports as accepted. -/
theorem loop_body_with_accepted (f : M → OpModel → Bool) (node : Node) (pm : M)
    (cache : Finset Nat) :
    (loop_body (X.with_accepted f) graph config target_cycles node pm cache).calls.map
        Call.forget_accepted =
      (loop_body X graph config target_cycles node pm cache).calls.map Call.forget_accepted ∧
    (loop_body (X.with_accepted f) graph config target_cycles node pm cache).policy_manager =
      (loop_body X graph config target_cycles node pm cache).policy_manager ∧
    (loop_body (X.with_accepted f) graph config target_cycles node pm cache).validated_cache =
      (loop_body X graph config target_cycles node pm cache).validated_cache ∧
    (loop_body (X.with_accepted f) graph config target_cycles node pm cache).epoch_completed =
      (loop_body X graph config target_cycles node pm cache).epoch_completed := by
  simp only [loop_body, Externals.with_accepted]
  split <;> simp [Call.forget_accepted]

/-- The loop does the same whatever `commit_op` reports as accepted. -/
theorem ribbon_loop_with_accepted (f : M → OpModel → Bool) (fuel : Nat) (pm : M)
    (cache : Finset Nat) (ec : Bool) :
    (ribbon_loop (X.with_accepted f) graph config target_cycles fuel pm cache ec).1.map
        Call.forget_accepted =
      (ribbon_loop X graph config target_cycles fuel pm cache ec).1.map Call.forget_accepted ∧
    (ribbon_loop (X.with_accepted f) graph config target_cycles fuel pm cache ec).2 =
      (ribbon_loop X graph config target_cycles fuel pm cache ec).2 := by
  induction fuel generalizing pm cache ec with
  | zero => simp [ribbon_loop]
  | succ fuel ih =>
    have hn : (X.with_accepted f).get_next_op pm = X.get_next_op pm := rfl
    cases hg : (X.get_next_op pm).1 with
    | none =>
      rw [ribbon_loop_exit X graph config target_cycles fuel pm cache ec hg,
        ribbon_loop_exit (X.with_accepted f) graph config target_cycles fuel pm cache ec
          (by rw [hn]; exact hg)]
      simp [hn]
    | some node =>
      rw [ribbon_loop_iter X graph config target_cycles fuel pm cache ec node hg,
        ribbon_loop_iter (X.with_accepted f) graph config target_cycles fuel pm cache ec node
          (by rw [hn]; exact hg)]
      obtain ⟨h1, h2, h3, h4⟩ :=
        loop_body_with_accepted X graph config target_cycles f node (X.get_next_op pm).2 cache
      rw [hn, h2, h3, h4]
      simp only [List.map_cons, List.map_append, h1, (ih _ _ _).1, (ih _ _ _).2]
      simp [Call.forget_accepted]

/-- The manager one loop body leaves: what `finish_current_epoch` makes of the state
the commit left when the commit reported completion, that state otherwise. -/
theorem loop_body_policy_manager (node : Node) (pm : M) (cache : Finset Nat) :
    (loop_body X graph config target_cycles node pm cache).policy_manager =
      (if (X.commit_op
          (X.select_best_op_model_ribbon (X.get_current_ribbon_size pm).2 node
            (X.get_current_ribbon_size pm).1 config graph cache target_cycles).2.1
          (X.select_best_op_model_ribbon (X.get_current_ribbon_size pm).2 node
            (X.get_current_ribbon_size pm).1 config graph cache target_cycles).1).1.2.1 = true
        then X.finish_current_epoch (X.commit_op
          (X.select_best_op_model_ribbon (X.get_current_ribbon_size pm).2 node
            (X.get_current_ribbon_size pm).1 config graph cache target_cycles).2.1
          (X.select_best_op_model_ribbon (X.get_current_ribbon_size pm).2 node
            (X.get_current_ribbon_size pm).1 config graph cache target_cycles).1).2
        else (X.commit_op
          (X.select_best_op_model_ribbon (X.get_current_ribbon_size pm).2 node
            (X.get_current_ribbon_size pm).1 config graph cache target_cycles).2.1
          (X.select_best_op_model_ribbon (X.get_current_ribbon_size pm).2 node
            (X.get_current_ribbon_size pm).1 config graph cache target_cycles).1).2) := by
  simp only [loop_body]
  split <;> rfl

/-- The turn after a non-null `get_next_op` starts where the loop body left off. -/
theorem iteration_start_succ (k : Nat) (pm : M) (cache : Finset Nat) (node : Node)
    (hg : (X.get_next_op pm).1 = some node) :
    iteration_start X graph config target_cycles (k + 1) pm cache =
      iteration_start X graph config target_cycles k
        (loop_body X graph config target_cycles node (X.get_next_op pm).2 cache).policy_manager
        (loop_body X graph config target_cycles node
          (X.get_next_op pm).2 cache).validated_cache := by
  simp only [iteration_start, hg]

/-- With one node committed per iteration the loop exits after as many iterations as
nodes were uncommitted, and not before. -/
theorem ribbon_loop_iterations (remaining : M → Nat) (fuel : Nat) (pm : M)
    (cache : Finset Nat) (ec : Bool)
    (h : one_node_per_commit X graph config target_cycles remaining pm cache) :
    (remaining pm < fuel →
      (ribbon_loop X graph config target_cycles fuel pm cache ec).2.isSome ∧
      (handed_out (ribbon_loop X graph config target_cycles fuel pm cache ec).1).length =
        remaining pm) ∧
    (fuel ≤ remaining pm →
      (ribbon_loop X graph config target_cycles fuel pm cache ec).2 = none ∧
      (handed_out (ribbon_loop X graph config target_cycles fuel pm cache ec).1).length =
        fuel) := by
  induction fuel generalizing pm cache ec with
  | zero => simp [ribbon_loop, handed_out]
  | succ fuel ih =>
    obtain ⟨hzero, hcalls⟩ := h 0 pm cache rfl
    cases hg : (X.get_next_op pm).1 with
    | none =>
      have hz : remaining pm = 0 := hzero.mp hg
      rw [ribbon_loop_exit X graph config target_cycles fuel pm cache ec hg]
      simp [handed_out, hz]
    | some node =>
      obtain ⟨h1, h2, h3, h4, h5⟩ := hcalls node _ _ _ hg rfl rfl rfl
      have hbody :
          remaining (loop_body X graph config target_cycles node
            (X.get_next_op pm).2 cache).policy_manager + 1 = remaining pm := by
        rw [loop_body_policy_manager]
        split
        · rename_i hc
          rw [h5 hc]
          omega
        · omega
      have hnext : one_node_per_commit X graph config target_cycles remaining
          (loop_body X graph config target_cycles node (X.get_next_op pm).2 cache).policy_manager
          (loop_body X graph config target_cycles node
            (X.get_next_op pm).2 cache).validated_cache := by
        intro k pmk ck hk
        exact h (k + 1) pmk ck
          ((iteration_start_succ X graph config target_cycles k pm cache node hg).trans hk)
      rw [ribbon_loop_iter X graph config target_cycles fuel pm cache ec node hg]
      obtain ⟨w, om, a, t, hs⟩ :=
        loop_body_shape X graph config target_cycles node (X.get_next_op pm).2 cache
      have hih := ih
        (loop_body X graph config target_cycles node (X.get_next_op pm).2 cache).policy_manager
        (loop_body X graph config target_cycles node
          (X.get_next_op pm).2 cache).validated_cache
        (loop_body X graph config target_cycles node
          (X.get_next_op pm).2 cache).epoch_completed hnext
      have hlen : ∀ rest : List (Call Node OpModel),
          (handed_out (Call.get_next_op (some node) ::
            (loop_body X graph config target_cycles node (X.get_next_op pm).2 cache).calls ++
              rest)).length = (handed_out rest).length + 1 := by
        intro rest
        rw [hs]
        simp only [handed_out]
        split <;> simp [List.filterMap_cons, List.filterMap_append]
      refine ⟨fun hlt => ?_, fun hle => ?_⟩
      · obtain ⟨e1, e2⟩ := hih.1 (by omega)
        refine ⟨e1, ?_⟩
        rw [hlen, e2]
        omega
      · obtain ⟨e1, e2⟩ := hih.2 (by omega)
        refine ⟨e1, ?_⟩
        rw [hlen, e2]

/-- The loop exits only through a null `get_next_op`: when it exits, that is its last
call and the only null result in it. -/
theorem ribbon_loop_only_exit (fuel : Nat) (pm : M) (cache : Finset Nat) (ec : Bool) :
    (ribbon_loop X graph config target_cycles fuel pm cache ec).2.isSome →
      ∃ body, (ribbon_loop X graph config target_cycles fuel pm cache ec).1 =
        body ++ [Call.get_next_op none] ∧ Call.get_next_op none ∉ body := by
  refine ribbon_loop_induct X graph config target_cycles
    (fun l e => e.isSome → ∃ body, l = body ++ [Call.get_next_op none] ∧
      Call.get_next_op none ∉ body) ?_ ?_ ?_ fuel pm cache ec
  · simp
  · intro x _
    exact ⟨[], rfl, by simp⟩
  · intro node w cache om a ec t rest exit ih he
    obtain ⟨body, hb, hnot⟩ := ih he
    subst hb
    refine ⟨Call.get_next_op (some node) :: Call.get_current_ribbon_size w ::
      Call.select_best_op_model_ribbon node w cache target_cycles om ::
      Call.commit_op om a ec t ::
      ((if ec then [Call.finish_current_epoch] else []) ++ body), by simp, ?_⟩
    cases ec <;> simp [hnot]

/-- A manager that reopens a node at every epoch boundary keeps the loop going. -/
theorem ribbon_loop_counting_reopened (tc : Int) (fuel : Nat) (ec : Bool) :
    (ribbon_loop (counting 1 true 1) () () tc fuel 1 ∅ ec).2 = none := by
  induction fuel generalizing ec with
  | zero => rfl
  | succ fuel ih =>
    rw [ribbon_loop_iter (counting 1 true 1) () () tc fuel 1 ∅ ec 1 rfl]
    exact ih true

/-- The counting managers satisfy the progress precondition as soon as a commit takes
at least one node. -/
theorem makes_progress_counting (step : Nat) (complete : Bool) (reopened : Nat)
    (hstep : 0 < step) : makes_progress (counting step complete reopened) fun n => n := by
  refine ⟨fun pm om hpos => ?_, fun pm => ?_⟩
  · have hpos2 : 0 < pm := hpos
    show pm - step < pm
    omega
  · show (if pm = 0 then none else some pm) = none ↔ pm = 0
    split <;> simp_all

/-- Induction over the trace of the whole function. -/
theorem run_policy_ribbon_from_induct (strategy : InvalidationStrategy) (env : Env)
    (P : List (Call Node OpModel) → Prop)
    (hfuel : P [])
    (hexit : P [Call.get_next_op none, Call.commit_solution, Call.finish])
    (hiter : ∀ node w cache om a ec t rest, P rest →
      P (Call.get_next_op (some node) :: Call.get_current_ribbon_size w ::
          Call.select_best_op_model_ribbon node w cache
            (env_as env.PYBUDA_RIBBON_TARGET_CYCLES 45000) om ::
          Call.commit_op om a ec t ::
          ((if ec then [Call.finish_current_epoch] else []) ++ rest)))
    (hpre : ∀ mask rest, P rest → P (Call.invalidate_suboptimal_op_models mask :: rest))
    (fuel : Nat) (pm0 : M) :
    P (run_policy_ribbon_from X strategy env fuel graph config pm0).1 := by
  rw [run_policy_ribbon_from_eq]
  have hloop := ribbon_loop_induct X graph config (env_as env.PYBUDA_RIBBON_TARGET_CYCLES 45000)
    (fun l e => P (l ++ if e.isSome then [Call.commit_solution, Call.finish] else []))
    (by simpa using hfuel) (fun x => by simpa using hexit)
    (fun node w cache om a ec t rest exit h => by
      have := hiter node w cache om a ec t _ h
      simpa [List.append_assoc] using this)
    fuel (prepass X strategy env pm0).2 ∅ false
  simp only [List.append_assoc]
  rcases prepass_calls X strategy env pm0 with h | ⟨mask, h⟩
  · rw [h]
    exact hloop
  · rw [h]
    exact hpre mask _ hloop

/-- The assembly calls are made nowhere but at the end, and the pre-pass call nowhere
but at the start. -/
theorem run_policy_ribbon_from_assembly (strategy : InvalidationStrategy) (env : Env)
    (fuel : Nat) (pm0 : M) :
    Call.commit_solution ∉ (prepass X strategy env pm0).1 ++
      (ribbon_loop X graph config (env_as env.PYBUDA_RIBBON_TARGET_CYCLES 45000) fuel
        (prepass X strategy env pm0).2 ∅ false).1 ∧
    Call.finish ∉ (prepass X strategy env pm0).1 ++
      (ribbon_loop X graph config (env_as env.PYBUDA_RIBBON_TARGET_CYCLES 45000) fuel
        (prepass X strategy env pm0).2 ∅ false).1 ∧
    ∀ mask, Call.invalidate_suboptimal_op_models mask ∉
      (ribbon_loop X graph config (env_as env.PYBUDA_RIBBON_TARGET_CYCLES 45000) fuel
        (prepass X strategy env pm0).2 ∅ false).1 := by
  have hloop := ribbon_loop_induct X graph config (env_as env.PYBUDA_RIBBON_TARGET_CYCLES 45000)
    (fun l _ => Call.commit_solution ∉ l ∧ Call.finish ∉ l ∧
      ∀ mask, Call.invalidate_suboptimal_op_models mask ∉ l)
    (by simp) (fun x => by simp)
    (fun node w cache om a ec t rest exit h => by
      obtain ⟨h1, h2, h3⟩ := h
      cases ec <;> simp [h1, h2, h3])
    fuel (prepass X strategy env pm0).2 ∅ false
  obtain ⟨h1, h2, h3⟩ := hloop
  refine ⟨?_, ?_, h3⟩
  · rcases prepass_calls X strategy env pm0 with h | ⟨mask, h⟩ <;> rw [h] <;> simp [h1]
  · rcases prepass_calls X strategy env pm0 with h | ⟨mask, h⟩ <;> rw [h] <;> simp [h2]

/-- Whenever a selection has two calls before it, they are the `get_next_op` that
handed out its node and the ribbon size read it was given; a selection is never the
first or the second call. -/
theorem run_policy_ribbon_from_selection_context (strategy : InvalidationStrategy)
    (env : Env) (fuel : Nat) (pm0 : M) :
    (∀ x y node w c tc om,
      [x, y, Call.select_best_op_model_ribbon node w c tc om] <:+:
          (run_policy_ribbon_from X strategy env fuel graph config pm0).1 →
        x = Call.get_next_op (some node) ∧ y = Call.get_current_ribbon_size w) ∧
    (∀ node w c tc om,
      ¬ [Call.select_best_op_model_ribbon node w c tc om] <+:
          (run_policy_ribbon_from X strategy env fuel graph config pm0).1) ∧
    (∀ x node w c tc om,
      ¬ [x, Call.select_best_op_model_ribbon node w c tc om] <+:
          (run_policy_ribbon_from X strategy env fuel graph config pm0).1) := by
  refine run_policy_ribbon_from_induct X graph config strategy env
    (fun l =>
      (∀ x y node w c tc om,
        [x, y, Call.select_best_op_model_ribbon node w c tc om] <:+: l →
          x = Call.get_next_op (some node) ∧ y = Call.get_current_ribbon_size w) ∧
      (∀ node w c tc om, ¬ [Call.select_best_op_model_ribbon node w c tc om] <+: l) ∧
      (∀ x node w c tc om, ¬ [x, Call.select_best_op_model_ribbon node w c tc om] <+: l))
    ?_ ?_ ?_ ?_ fuel pm0
  · simp
  · refine ⟨?_, by simp, by simp⟩
    intro x y node w c tc om h
    simp [List.infix_cons_iff, List.cons_prefix_cons] at h
  · intro node w cache om a ec t rest ⟨h1, h2, h3⟩
    refine ⟨?_, by simp, by simp⟩
    intro x y node2 w2 c2 tc2 om2 h
    cases ec
    · simp only [Bool.false_eq_true, if_false, List.nil_append] at h
      simp only [List.infix_cons_iff, List.cons_prefix_cons] at h
      rcases h with h | h | h | h | h
      · obtain ⟨rfl, rfl, h, -⟩ := h
        simp only [Call.select_best_op_model_ribbon.injEq] at h
        obtain ⟨rfl, rfl, -⟩ := h
        exact ⟨rfl, rfl⟩
      · simp at h
      · obtain ⟨-, -, h⟩ := h
        exact absurd h (h2 node2 w2 c2 tc2 om2)
      · obtain ⟨-, h⟩ := h
        exact absurd h (h3 y node2 w2 c2 tc2 om2)
      · exact h1 x y node2 w2 c2 tc2 om2 h
    · simp only [if_true, List.cons_append, List.nil_append] at h
      simp only [List.infix_cons_iff, List.cons_prefix_cons] at h
      rcases h with h | h | h | h | h | h
      · obtain ⟨rfl, rfl, h, -⟩ := h
        simp only [Call.select_best_op_model_ribbon.injEq] at h
        obtain ⟨rfl, rfl, -⟩ := h
        exact ⟨rfl, rfl⟩
      · simp at h
      · simp at h
      · obtain ⟨-, -, h⟩ := h
        exact absurd h (h2 node2 w2 c2 tc2 om2)
      · obtain ⟨-, h⟩ := h
        exact absurd h (h3 y node2 w2 c2 tc2 om2)
      · exact h1 x y node2 w2 c2 tc2 om2 h
  · intro mask rest ⟨h1, h2, h3⟩
    refine ⟨?_, by simp, ?_⟩
    · intro x y node w c tc om h
      simp only [List.infix_cons_iff, List.cons_prefix_cons] at h
      rcases h with h | h
      · obtain ⟨-, h⟩ := h
        exact absurd h (h3 y node w c tc om)
      · exact h1 x y node w c tc om h
    · intro x node w c tc om h
      simp only [List.cons_prefix_cons] at h
      exact absurd h.2 (h2 node w c tc om)

/-- The run of the chain scenario commits one node at each commit it makes. -/
theorem chain_one_node_per_commit (tc : Int) :
    one_node_per_commit chain_scheduler chain 2 tc EpochScheduler.uncommitted
      (chain_scheduler.PolicyManager chain 2 () true) ∅ := by
  intro k pmk ck hk
  rcases k with _ | _ | _ | _ | k
  · replace hk : iteration_start chain_scheduler chain 2 0 0
        (chain_scheduler.PolicyManager chain 2 () true) ∅ = some (pmk, ck) := hk
    cases hk
    refine ⟨by decide, ?_⟩
    intro node r sel cm hg hr hsel hcm
    cases hg
    subst hr hsel hcm
    exact ⟨rfl, rfl, rfl, rfl, fun _ => rfl⟩
  · replace hk : iteration_start chain_scheduler chain 2 0 1
        (chain_scheduler.PolicyManager chain 2 () true) ∅ = some (pmk, ck) := hk
    cases hk
    refine ⟨by decide, ?_⟩
    intro node r sel cm hg hr hsel hcm
    cases hg
    subst hr hsel hcm
    exact ⟨rfl, rfl, rfl, rfl, fun _ => rfl⟩
  · replace hk : iteration_start chain_scheduler chain 2 0 2
        (chain_scheduler.PolicyManager chain 2 () true) ∅ = some (pmk, ck) := hk
    cases hk
    refine ⟨by decide, ?_⟩
    intro node r sel cm hg hr hsel hcm
    cases hg
    subst hr hsel hcm
    exact ⟨rfl, rfl, rfl, rfl, fun _ => rfl⟩
  · replace hk : iteration_start chain_scheduler chain 2 0 3
        (chain_scheduler.PolicyManager chain 2 () true) ∅ = some (pmk, ck) := hk
    cases hk
    refine ⟨by decide, ?_⟩
    intro node r sel cm hg
    cases hg
  · cases hk

/-- Two calls made one right after the other are related by `may_precede`. -/
theorem run_policy_ribbon_from_adjacent (strategy : InvalidationStrategy) (env : Env)
    (fuel : Nat) (pm0 : M) (c d : Call Node OpModel)
    (h : [c, d] <:+: (run_policy_ribbon_from X strategy env fuel graph config pm0).1) :
    Call.may_precede c d := by
  obtain ⟨before, after, hsplit⟩ := h
  have hc := (run_policy_ribbon_from_chain X graph config strategy env fuel pm0).1
  rw [← hsplit] at hc
  exact List.chain'_pair.mp hc.left_of_append.right_of_append

end Basics

/-! # The claims -/

section Claims

variable {M Node OpModel Graph Config GraphSolver PlacerSolution Solution : Type}
variable (X : Externals M Node OpModel Graph Config GraphSolver PlacerSolution Solution)
variable (strategy : InvalidationStrategy) (env : Env) (fuel : Nat)
variable (graph : Graph) (config : Config) (graph_solver : GraphSolver)

/-- C2 fails as stated: against a manager that declines the commit for node 1 without
reporting epoch completion and then hands out node 2, the driver neither selects again
for node 1 nor finishes the epoch; the next selection is for node 2. -/
theorem C2_declined_commit_not_recovered :
    (run_policy_ribbon (scripted (fun _ => false) (fun _ => false))
        InvalidationStrategy.sample Env.unset 3 () () [1, 2]).1 =
      [Call.get_next_op (some 1), Call.get_current_ribbon_size 1,
       Call.select_best_op_model_ribbon 1 1 ∅ 45000 11, Call.commit_op 11 false false false,
       Call.get_next_op (some 2), Call.get_current_ribbon_size 1,
       Call.select_best_op_model_ribbon 2 1 (insert 1 ∅) 45000 21,
       Call.commit_op 21 false false false,
       Call.get_next_op none, Call.commit_solution, Call.finish] ∧
    ¬ recovers_locally
      (run_policy_ribbon (scripted (fun _ => false) (fun _ => false))
        InvalidationStrategy.sample Env.unset 3 () () [1, 2]).1 := by
  have hcalls :
      (run_policy_ribbon (scripted (fun _ => false) (fun _ => false))
        InvalidationStrategy.sample Env.unset 3 () () [1, 2]).1 =
      [Call.get_next_op (some 1), Call.get_current_ribbon_size 1,
       Call.select_best_op_model_ribbon 1 1 ∅ 45000 11, Call.commit_op 11 false false false,
       Call.get_next_op (some 2), Call.get_current_ribbon_size 1,
       Call.select_best_op_model_ribbon 2 1 (insert 1 ∅) 45000 21,
       Call.commit_op 21 false false false,
       Call.get_next_op none, Call.commit_solution, Call.finish] := rfl
  refine ⟨hcalls, ?_⟩
  intro h
  have h2 := h [Call.get_next_op (some 1), Call.get_current_ribbon_size 1]
    [Call.get_next_op (some 2), Call.get_current_ribbon_size 1]
    [Call.commit_op 21 false false false, Call.get_next_op none, Call.commit_solution,
      Call.finish]
    1 1 ∅ 45000 11 false false 2 1 (insert 1 ∅) 45000 21 hcalls
    (by simp [Call.is_selection])
  simp at h2

/-- C2 as amended: `run_policy_ribbon` does not read the `accepted` component of
`commit_op`.  Whatever `commit_op` reports there, the driver makes the same calls with
the same arguments and returns the same outcome; and after a declined commit the next
call is `finish_current_epoch` when that commit reported epoch completion and
`get_next_op` when it did not. -/
theorem C2_accepted_flag_is_ignored (f : M → OpModel → Bool) :
    (run_policy_ribbon (X.with_accepted f) strategy env fuel graph config graph_solver).1.map
        Call.forget_accepted =
      (run_policy_ribbon X strategy env fuel graph config graph_solver).1.map
        Call.forget_accepted ∧
    (run_policy_ribbon (X.with_accepted f) strategy env fuel graph config graph_solver).2 =
      (run_policy_ribbon X strategy env fuel graph config graph_solver).2 ∧
    (∀ om ec t c,
      [Call.commit_op om false ec t, c] <:+:
          (run_policy_ribbon X strategy env fuel graph config graph_solver).1 →
        (ec = true ∧ c = Call.finish_current_epoch) ∨
          (ec = false ∧ ∃ r, c = Call.get_next_op r)) := by
  refine ⟨?_, ?_, ?_⟩
  · unfold run_policy_ribbon
    rw [run_policy_ribbon_from_eq, run_policy_ribbon_from_eq]
    have h := ribbon_loop_with_accepted X graph config
      (env_as env.PYBUDA_RIBBON_TARGET_CYCLES 45000) f fuel
      (prepass X strategy env (X.PolicyManager graph config graph_solver true)).2 ∅ false
    have hp : prepass (X.with_accepted f) strategy env
        ((X.with_accepted f).PolicyManager graph config graph_solver true) =
        prepass X strategy env (X.PolicyManager graph config graph_solver true) := rfl
    rw [hp]
    simp only [Externals.with_accepted] at h ⊢
    simp only [List.map_append, h.1, h.2]
  · unfold run_policy_ribbon
    rw [run_policy_ribbon_from_eq, run_policy_ribbon_from_eq]
    have h := ribbon_loop_with_accepted X graph config
      (env_as env.PYBUDA_RIBBON_TARGET_CYCLES 45000) f fuel
      (prepass X strategy env (X.PolicyManager graph config graph_solver true)).2 ∅ false
    have hp : prepass (X.with_accepted f) strategy env
        ((X.with_accepted f).PolicyManager graph config graph_solver true) =
        prepass X strategy env (X.PolicyManager graph config graph_solver true) := rfl
    rw [hp]
    simp only [Externals.with_accepted] at h ⊢
    simp only [h.2]
  · intro om ec t c h
    have hp := run_policy_ribbon_from_adjacent X graph config strategy env fuel _ _ _ h
    cases c <;> simp [Call.may_precede] at hp ⊢
    · exact hp
    · exact hp

/-- C2 as amended, at a concrete input: the declined commit of node 1 by the scripted
manager, which did not report completion, is followed by `get_next_op`. -/
theorem C2_accepted_flag_is_ignored_witness :
    [Call.commit_op 11 false false false, Call.get_next_op (some 2)] <:+:
        (run_policy_ribbon (scripted (fun _ => false) (fun _ => false))
          InvalidationStrategy.sample Env.unset 3 () () [1, 2]).1 ∧
      ((false = true ∧ (Call.get_next_op (some 2) : Call Nat Nat) = Call.finish_current_epoch) ∨
        (false = false ∧ ∃ r, (Call.get_next_op (some 2) : Call Nat Nat) = Call.get_next_op r)) :=
  ⟨⟨[Call.get_next_op (some 1), Call.get_current_ribbon_size 1,
      Call.select_best_op_model_ribbon 1 1 ∅ 45000 11], _, rfl⟩,
    (C2_accepted_flag_is_ignored (scripted (fun _ => false) (fun _ => false))
      InvalidationStrategy.sample Env.unset 3 () () [1, 2] (fun _ _ => true)).2.2
      11 false false (Call.get_next_op (some 2))
      ⟨[Call.get_next_op (some 1), Call.get_current_ribbon_size 1,
        Call.select_best_op_model_ribbon 1 1 ∅ 45000 11], _, rfl⟩⟩

/-- C5: driving the scheduler of section 4.1 on the chain `A → B → C`, one legal
configuration of footprint 1 per node and epoch capacity 2, `run_policy_ribbon` returns
(given fuel for the four `get_next_op` calls) exactly two epochs in order: `A, B` and
then `C`. -/
theorem C5_chain_packs_two_epochs (k : Nat) :
    (run_policy_ribbon chain_scheduler strategy env (k + 4) chain 2 ()).2.map
        Outcome.solution =
      some [[chain_configuration ChainNode.A, chain_configuration ChainNode.B],
        [chain_configuration ChainNode.C]] ∧
    (run_policy_ribbon chain_scheduler strategy env (k + 4) chain 2 ()).2.map
        Outcome.placer_solution =
      some [[ChainNode.A, ChainNode.B], [ChainNode.C]] := by
  unfold run_policy_ribbon
  rw [run_policy_ribbon_from_eq]
  have hpp : (prepass chain_scheduler strategy env
      (chain_scheduler.PolicyManager chain 2 () true)).2 =
      chain_scheduler.PolicyManager chain 2 () true := by
    unfold prepass
    split <;> rfl
  rw [hpp]
  constructor <;> rfl

/-- C6 fails as stated: the progress precondition alone fixes neither the number of
iterations nor termination.  A manager whose commits take two nodes at a time meets it
and the loop, entered with 2 uncommitted nodes, exits after 1 iteration; a manager whose
`finish_current_epoch` reopens a node meets it and the loop never exits. -/
theorem C6_progress_alone_is_not_enough :
    (makes_progress (counting 2 false 0) (fun n => n) ∧
      (run_policy_ribbon (counting 2 false 0)
        InvalidationStrategy.sample Env.unset 5 () () 2).2.isSome = true ∧
      (handed_out (run_policy_ribbon (counting 2 false 0)
        InvalidationStrategy.sample Env.unset 5 () () 2).1).length = 1) ∧
    (makes_progress (counting 1 true 1) (fun n => n) ∧
      ¬ ∃ fuel, (run_policy_ribbon (counting 1 true 1)
        InvalidationStrategy.sample Env.unset fuel () () 1).2.isSome = true) := by
  refine ⟨⟨makes_progress_counting 2 false 0 (by decide), rfl, rfl⟩,
    makes_progress_counting 1 true 1 (by decide), ?_⟩
  rintro ⟨fuel, h⟩
  unfold run_policy_ribbon at h
  rw [run_policy_ribbon_from_eq] at h
  have hp : (prepass (counting 1 true 1) InvalidationStrategy.sample Env.unset
      ((counting 1 true 1).PolicyManager () () 1 true)).2 = 1 := rfl
  rw [hp, ribbon_loop_counting_reopened] at h
  simp at h

/-- C6 as amended: when, at every turn the loop starts, `get_next_op` returns none
exactly when no uncommitted node is left, the `commit_op` call made takes exactly one
of them, and the other calls made leave their number as it is, `run_policy_ribbon` with
`n` uncommitted nodes at loop entry returns as soon as the fuel allows `n + 1` calls of
`get_next_op`, after exactly `n` iterations, and with less fuel it is still in the loop;
in any run that returns, the loop was left through a null `get_next_op`, its last call
and the only null result. -/
theorem C6_one_iteration_per_uncommitted_node (remaining : M → Nat)
    (h : one_node_per_commit X graph config (env_as env.PYBUDA_RIBBON_TARGET_CYCLES 45000)
      remaining (prepass X strategy env (X.PolicyManager graph config graph_solver true)).2 ∅) :
    (remaining (prepass X strategy env (X.PolicyManager graph config graph_solver true)).2
        < fuel →
      (run_policy_ribbon X strategy env fuel graph config graph_solver).2.isSome ∧
      (handed_out (run_policy_ribbon X strategy env fuel graph config graph_solver).1).length =
        remaining
          (prepass X strategy env (X.PolicyManager graph config graph_solver true)).2) ∧
    (fuel ≤
        remaining (prepass X strategy env (X.PolicyManager graph config graph_solver true)).2 →
      (run_policy_ribbon X strategy env fuel graph config graph_solver).2 = none ∧
      (handed_out (run_policy_ribbon X strategy env fuel graph config graph_solver).1).length =
        fuel) ∧
    ((run_policy_ribbon X strategy env fuel graph config graph_solver).2.isSome →
      ∃ body,
        (run_policy_ribbon X strategy env fuel graph config graph_solver).1 =
          body ++ [Call.get_next_op none, Call.commit_solution, Call.finish] ∧
        Call.get_next_op none ∉ body) := by
  unfold run_policy_ribbon
  rw [run_policy_ribbon_from_eq]
  have hit := ribbon_loop_iterations X graph config
    (env_as env.PYBUDA_RIBBON_TARGET_CYCLES 45000) remaining fuel
    (prepass X strategy env (X.PolicyManager graph config graph_solver true)).2 ∅ false h
  have hex := ribbon_loop_only_exit X graph config
    (env_as env.PYBUDA_RIBBON_TARGET_CYCLES 45000) fuel
    (prepass X strategy env (X.PolicyManager graph config graph_solver true)).2 ∅ false
  have hpre : handed_out (prepass X strategy env
      (X.PolicyManager graph config graph_solver true)).1 = [] := by
    rcases prepass_calls X strategy env (X.PolicyManager graph config graph_solver true)
      with h | ⟨mask, h⟩ <;> rw [h] <;> rfl
  have hpre2 : Call.get_next_op none ∉ (prepass X strategy env
      (X.PolicyManager graph config graph_solver true)).1 := by
    rcases prepass_calls X strategy env (X.PolicyManager graph config graph_solver true)
      with h | ⟨mask, h⟩ <;> rw [h] <;> simp
  have happ : ∀ l₁ l₂ : List (Call Node OpModel),
      handed_out (l₁ ++ l₂) = handed_out l₁ ++ handed_out l₂ := by
    intro l₁ l₂
    simp [handed_out, List.filterMap_append]
  refine ⟨fun hlt => ?_, fun hle => ?_, fun hsome => ?_⟩
  · obtain ⟨h1, h2⟩ := hit.1 hlt
    refine ⟨by simpa using h1, ?_⟩
    simp only [h1, if_true, happ, hpre, List.nil_append, List.length_append, h2]
    rfl
  · obtain ⟨h1, h2⟩ := hit.2 hle
    refine ⟨by simp [h1], ?_⟩
    simp only [h1, happ, hpre, List.nil_append, List.length_append, h2]
    rfl
  · have hs : (ribbon_loop X graph config (env_as env.PYBUDA_RIBBON_TARGET_CYCLES 45000) fuel
        (prepass X strategy env (X.PolicyManager graph config graph_solver true)).2
        ∅ false).2.isSome = true := by
      simpa using hsome
    obtain ⟨body, hb, hnot⟩ := hex hs
    refine ⟨(prepass X strategy env (X.PolicyManager graph config graph_solver true)).1 ++ body,
      ?_, ?_⟩
    · simp only [hs, if_true, hb]
      simp
    · simp [hpre2, hnot]

/-- C6 at a concrete input: the chain scenario, a scheduler that can decline a commit;
on its run each commit takes one of the three nodes, and with fuel 4 the run returns
after 3 iterations. -/
theorem C6_one_iteration_per_uncommitted_node_witness :
    (run_policy_ribbon chain_scheduler InvalidationStrategy.sample Env.unset 4 chain 2
        ()).2.isSome ∧
    (handed_out (run_policy_ribbon chain_scheduler InvalidationStrategy.sample Env.unset 4
        chain 2 ()).1).length = 3 :=
  (C6_one_iteration_per_uncommitted_node chain_scheduler InvalidationStrategy.sample
    Env.unset 4 chain 2 () EpochScheduler.uncommitted (chain_one_node_per_commit _)).1
    (by decide)

/-- C7: once the loop of `run_policy_ribbon` has exited, in whatever manager state and
whatever the last iteration did, the function returns: its calls are those of the
pre-pass and the loop followed by exactly `commit_solution` then `finish`,
`placer_solution` receives what `commit_solution` returns on the manager at loop exit,
and the value returned is what `finish` returns on the manager that `commit_solution`
left.  As long as the loop has not exited no assembly call is made and nothing is
returned, and neither assembly call is made by the pre-pass or the loop.  When
`get_next_op` returns none on the first call, the run returns with any fuel, having
called nothing but `get_next_op`, `commit_solution` and `finish` after the pre-pass. -/
theorem C7_solution_assembled_once_after_loop :
    (∀ fin,
      (ribbon_loop X graph config (env_as env.PYBUDA_RIBBON_TARGET_CYCLES 45000) fuel
        (prepass X strategy env (X.PolicyManager graph config graph_solver true)).2
        ∅ false).2 = some fin →
      run_policy_ribbon X strategy env fuel graph config graph_solver =
        (((prepass X strategy env (X.PolicyManager graph config graph_solver true)).1 ++
            (ribbon_loop X graph config (env_as env.PYBUDA_RIBBON_TARGET_CYCLES 45000) fuel
              (prepass X strategy env (X.PolicyManager graph config graph_solver true)).2
              ∅ false).1) ++ [Call.commit_solution, Call.finish],
         some
          { placer_solution := (X.commit_solution fin.1).1,
            solution := (X.finish (X.commit_solution fin.1).2).1,
            policy_manager := (X.finish (X.commit_solution fin.1).2).2 })) ∧
    ((ribbon_loop X graph config (env_as env.PYBUDA_RIBBON_TARGET_CYCLES 45000) fuel
        (prepass X strategy env (X.PolicyManager graph config graph_solver true)).2
        ∅ false).2 = none →
      run_policy_ribbon X strategy env fuel graph config graph_solver =
        ((prepass X strategy env (X.PolicyManager graph config graph_solver true)).1 ++
            (ribbon_loop X graph config (env_as env.PYBUDA_RIBBON_TARGET_CYCLES 45000) fuel
              (prepass X strategy env (X.PolicyManager graph config graph_solver true)).2
              ∅ false).1,
         none)) ∧
    Call.commit_solution ∉
      (prepass X strategy env (X.PolicyManager graph config graph_solver true)).1 ++
        (ribbon_loop X graph config (env_as env.PYBUDA_RIBBON_TARGET_CYCLES 45000) fuel
          (prepass X strategy env (X.PolicyManager graph config graph_solver true)).2
          ∅ false).1 ∧
    Call.finish ∉
      (prepass X strategy env (X.PolicyManager graph config graph_solver true)).1 ++
        (ribbon_loop X graph config (env_as env.PYBUDA_RIBBON_TARGET_CYCLES 45000) fuel
          (prepass X strategy env (X.PolicyManager graph config graph_solver true)).2
          ∅ false).1 ∧
    ((X.get_next_op
        (prepass X strategy env (X.PolicyManager graph config graph_solver true)).2).1 = none →
      run_policy_ribbon X strategy env (fuel + 1) graph config graph_solver =
        ((prepass X strategy env (X.PolicyManager graph config graph_solver true)).1 ++
          [Call.get_next_op none, Call.commit_solution, Call.finish],
         some
          { placer_solution := (X.commit_solution (X.get_next_op
              (prepass X strategy env
                (X.PolicyManager graph config graph_solver true)).2).2).1,
            solution := (X.finish (X.commit_solution (X.get_next_op
              (prepass X strategy env
                (X.PolicyManager graph config graph_solver true)).2).2).2).1,
            policy_manager := (X.finish (X.commit_solution (X.get_next_op
              (prepass X strategy env
                (X.PolicyManager graph config graph_solver true)).2).2).2).2 })) := by
  unfold run_policy_ribbon
  obtain ⟨h1, h2, -⟩ := run_policy_ribbon_from_assembly X graph config strategy env fuel
    (X.PolicyManager graph config graph_solver true)
  refine ⟨?_, ?_, h1, h2, ?_⟩
  · intro fin hfin
    rw [run_policy_ribbon_from_eq, hfin]
    simp
  · intro hnone
    rw [run_policy_ribbon_from_eq, hnone]
    simp
  · intro hnone
    rw [run_policy_ribbon_from_eq, ribbon_loop_exit X graph config _ fuel _ ∅ false hnone]
    simp

/-- C7 at concrete inputs: the chain scenario with fuel 4, whose loop exits after an
iteration that did not complete an epoch; the same with capacity 1, whose last
iteration completed one; the chain with fuel 2, whose loop has not exited; and an empty
graph, where `get_next_op` returns none at once. -/
theorem C7_solution_assembled_once_after_loop_witness :
    (run_policy_ribbon chain_scheduler InvalidationStrategy.sample Env.unset 4 chain 2 ()).2.map
        Outcome.solution =
      some [[chain_configuration ChainNode.A, chain_configuration ChainNode.B],
        [chain_configuration ChainNode.C]] ∧
    (run_policy_ribbon chain_scheduler InvalidationStrategy.sample Env.unset 4 chain 1 ()).2.map
        Outcome.solution =
      some [[chain_configuration ChainNode.A], [chain_configuration ChainNode.B],
        [chain_configuration ChainNode.C]] ∧
    (run_policy_ribbon chain_scheduler InvalidationStrategy.sample Env.unset 2 chain 2 ()).2 =
      none ∧
    (run_policy_ribbon chain_scheduler InvalidationStrategy.sample Env.unset 1
        { nodes := [], edges := [] } 2 ()).1 =
      [Call.get_next_op none, Call.commit_solution, Call.finish] := by
  refine ⟨?_, ?_, ?_, ?_⟩
  · rw [(C7_solution_assembled_once_after_loop chain_scheduler InvalidationStrategy.sample
      Env.unset 4 chain 2 ()).1 _ rfl]
    rfl
  · rw [(C7_solution_assembled_once_after_loop chain_scheduler InvalidationStrategy.sample
      Env.unset 4 chain 1 ()).1 _ rfl]
    rfl
  · rw [(C7_solution_assembled_once_after_loop chain_scheduler InvalidationStrategy.sample
      Env.unset 2 chain 2 ()).2.1 rfl]
  · rw [(C7_solution_assembled_once_after_loop chain_scheduler
      InvalidationStrategy.sample Env.unset 0 { nodes := [], edges := [] } 2 ()).2.2.2.2 rfl]
    rfl

/-- C9: the pre-pass is skipped when `PYBUDA_RIBBON1_PREPASS_ENABLED` is unset (false
by default) or false, and then `invalidate_suboptimal_op_models` is never called;
with the variable true, the run is the one `invalidate_suboptimal_op_models` call with
`MatmulSparseDenseGridPairing | DenseMatmulPrologue | DenseMatmulBetterUkt`, made first,
followed by the run without pre-pass from the manager that call left, with the same
outcome. -/
theorem C9_prepass_only_prunes_the_legal_set (tc : Option Int) :
    run_policy_ribbon X strategy
        { PYBUDA_RIBBON1_PREPASS_ENABLED := none, PYBUDA_RIBBON_TARGET_CYCLES := tc }
        fuel graph config graph_solver =
      run_policy_ribbon X strategy
        { PYBUDA_RIBBON1_PREPASS_ENABLED := some false, PYBUDA_RIBBON_TARGET_CYCLES := tc }
        fuel graph config graph_solver ∧
    (∀ pm0 mask, Call.invalidate_suboptimal_op_models mask ∉
      (run_policy_ribbon_from X strategy
        { PYBUDA_RIBBON1_PREPASS_ENABLED := some false, PYBUDA_RIBBON_TARGET_CYCLES := tc }
        fuel graph config pm0).1) ∧
    run_policy_ribbon X strategy
        { PYBUDA_RIBBON1_PREPASS_ENABLED := some true, PYBUDA_RIBBON_TARGET_CYCLES := tc }
        fuel graph config graph_solver =
      (Call.invalidate_suboptimal_op_models
          (strategy.MatmulSparseDenseGridPairing ||| strategy.DenseMatmulPrologue |||
            strategy.DenseMatmulBetterUkt) ::
        (run_policy_ribbon_from X strategy
          { PYBUDA_RIBBON1_PREPASS_ENABLED := some false, PYBUDA_RIBBON_TARGET_CYCLES := tc }
          fuel graph config
          (X.invalidate_suboptimal_op_models (X.PolicyManager graph config graph_solver true)
            (strategy.MatmulSparseDenseGridPairing ||| strategy.DenseMatmulPrologue |||
              strategy.DenseMatmulBetterUkt))).1,
       (run_policy_ribbon_from X strategy
          { PYBUDA_RIBBON1_PREPASS_ENABLED := some false, PYBUDA_RIBBON_TARGET_CYCLES := tc }
          fuel graph config
          (X.invalidate_suboptimal_op_models (X.PolicyManager graph config graph_solver true)
            (strategy.MatmulSparseDenseGridPairing ||| strategy.DenseMatmulPrologue |||
              strategy.DenseMatmulBetterUkt))).2) := by
  refine ⟨rfl, ?_, ?_⟩
  · intro pm0 mask
    rw [run_policy_ribbon_from_eq]
    obtain ⟨-, -, h3⟩ := run_policy_ribbon_from_assembly X graph config strategy
      { PYBUDA_RIBBON1_PREPASS_ENABLED := some false, PYBUDA_RIBBON_TARGET_CYCLES := tc }
      fuel pm0
    have hp : (prepass X strategy
        { PYBUDA_RIBBON1_PREPASS_ENABLED := some false, PYBUDA_RIBBON_TARGET_CYCLES := tc }
        pm0).1 = [] := rfl
    rw [hp]
    have h4 := h3 mask
    split <;> simp [h4]
  · unfold run_policy_ribbon
    rw [run_policy_ribbon_from_eq, run_policy_ribbon_from_eq]
    rfl

/-- C10: in `run_policy_ribbon` a selection always comes right after the
`get_current_ribbon_size` call whose result it is given, itself right after the
`get_next_op` that handed out its node, so each selection has a ribbon size read of
its own, made after the calls of the previous iteration.  In terms of the manager:
the first selection of the loop entered in state `pm` is given the size read in the
state `get_next_op` left, the later ones are those of the loop continued from the state
the body left, and that state is what `finish_current_epoch` made of the state the commit
left when the commit reported completion (the state the commit left otherwise). -/
theorem C10_selection_gets_fresh_ribbon_size :
    (∀ x y node w c tc om,
      [x, y, Call.select_best_op_model_ribbon node w c tc om] <:+:
          (run_policy_ribbon X strategy env fuel graph config graph_solver).1 →
        x = Call.get_next_op (some node) ∧ y = Call.get_current_ribbon_size w) ∧
    (∀ node w c tc om,
      ¬ [Call.select_best_op_model_ribbon node w c tc om] <+:
          (run_policy_ribbon X strategy env fuel graph config graph_solver).1) ∧
    (∀ x node w c tc om,
      ¬ [x, Call.select_best_op_model_ribbon node w c tc om] <+:
          (run_policy_ribbon X strategy env fuel graph config graph_solver).1) ∧
    (∀ tc pm cache ec node, (X.get_next_op pm).1 = some node →
      selection_widths (ribbon_loop X graph config tc (fuel + 1) pm cache ec).1 =
        (X.get_current_ribbon_size (X.get_next_op pm).2).1 ::
          selection_widths (ribbon_loop X graph config tc fuel
            (loop_body X graph config tc node (X.get_next_op pm).2 cache).policy_manager
            (loop_body X graph config tc node (X.get_next_op pm).2 cache).validated_cache
            (loop_body X graph config tc node (X.get_next_op pm).2 cache).epoch_completed).1) ∧
    (∀ tc node pm cache r sel cm,
      r = X.get_current_ribbon_size pm →
      sel = X.select_best_op_model_ribbon r.2 node r.1 config graph cache tc →
      cm = X.commit_op sel.2.1 sel.1 →
        (loop_body X graph config tc node pm cache).policy_manager =
          if cm.1.2.1 = true then X.finish_current_epoch cm.2 else cm.2) := by
  obtain ⟨h1, h2, h3⟩ := run_policy_ribbon_from_selection_context X graph config strategy env
    fuel (X.PolicyManager graph config graph_solver true)
  refine ⟨h1, h2, h3, ?_, ?_⟩
  · intro tc pm cache ec node hg
    rw [ribbon_loop_iter X graph config tc fuel pm cache ec node hg, loop_body_calls]
    simp only [selection_widths]
    split <;> simp [List.filterMap_cons, List.filterMap_append]
  · intro tc node pm cache r sel cm hr hsel hcm
    subst hr hsel hcm
    simp only [loop_body]
    split <;> rfl

/-- C10 at a concrete input: a manager that doubles the ribbon size at each epoch
boundary and completes an epoch at every commit; the two selections are given sizes 1
and 2. -/
theorem C10_selection_gets_fresh_ribbon_size_witness :
    ((scripted (fun _ => true) (fun _ => true)).get_next_op
        { pending := [1, 2], ribbon := 1, epochs := 0 }).1 = some 1 ∧
    selection_widths (ribbon_loop (scripted (fun _ => true) (fun _ => true)) () () 45000 (2 + 1)
        { pending := [1, 2], ribbon := 1, epochs := 0 } ∅ false).1 = [1, 2] ∧
    (loop_body (scripted (fun _ => true) (fun _ => true)) () () 45000 1
        { pending := [2], ribbon := 1, epochs := 0 } ∅).policy_manager =
      { pending := [2], ribbon := 2, epochs := 1 } :=
  ⟨rfl,
    ((C10_selection_gets_fresh_ribbon_size (scripted (fun _ => true) (fun _ => true))
      InvalidationStrategy.sample Env.unset 2 () () [1, 2]).2.2.2.1 45000
      { pending := [1, 2], ribbon := 1, epochs := 0 } ∅ false 1 rfl).trans rfl,
    ((C10_selection_gets_fresh_ribbon_size (scripted (fun _ => true) (fun _ => true))
      InvalidationStrategy.sample Env.unset 2 () () [1, 2]).2.2.2.2 45000 1
      { pending := [2], ribbon := 1, epochs := 0 } ∅ _ _ _ rfl rfl rfl).trans rfl⟩

end Claims

end tt.balancer
